import Mathlib

/-!
Shallow embedding of `run_from_csv.py` (the Holodeck CSV batch driver) and
proofs of the specification's claims about it.

The script reads CSV rows (`ID`, `Description`, optional `is_house`), in
`csv` mode stably sorts them so that non-house rows precede house rows,
constructs the Holodeck engine once up front, iterates the rows applying an
inclusive id-range filter, re-initializing the engine in `csv` mode whenever
the row's required `single_room` value differs from the current one, and
runs generation for each surviving row inside a try/except that records the
failure and continues.

The embedding replays that control flow over explicit data: a `Row` is one
CSV record (a missing column is `none`), the run produces the list of
engine-level events (constructions and generate calls) together with an
optional fatal error for the exceptions raised outside the per-row
`try`/`except` block.
-/

/-- One CSV record as produced by `csv.DictReader`: a missing column is
`none`. Field names follow the CSV header names used by the script. -/
structure Row where
  ID : Option String
  Description : Option String
  is_house : Option String
deriving DecidableEq

/-- ASCII lower-casing of one character, as `str.lower` acts on ASCII. -/
def lowerChar (c : Char) : Char :=
  if 'A' ≤ c ∧ c ≤ 'Z' then Char.ofNat (c.toNat + 32) else c

/-- `str.lower` on ASCII strings. -/
def pyLower (s : String) : String :=
  String.mk (s.data.map lowerChar)

/-- Whitespace characters stripped by Python's `int(str)` conversion. -/
def isSpaceChar (c : Char) : Bool :=
  c == ' ' || c == '\t' || c == '\n' || c == '\r'

/-- `str.strip()` on the whitespace characters of `isSpaceChar`. -/
def pyStrip (s : String) : String :=
  String.mk (((s.data.dropWhile isSpaceChar).reverse.dropWhile isSpaceChar).reverse)

/-- ASCII decimal digit test. -/
def isDigitChar (c : Char) : Bool :=
  '0' ≤ c && c ≤ '9'

/-- Value of a non-empty all-digit character list, most significant first. -/
def digitsVal (l : List Char) : Option Nat :=
  if l = [] then none
  else if l.all isDigitChar then some (l.foldl (fun a c => 10 * a + (c.toNat - 48)) 0)
  else none

/-- Python's `int(str)` conversion: optional surrounding whitespace, an
optional sign, then decimal digits; anything else raises `ValueError`,
modelled as `none`. -/
def pyInt (s : String) : Option Int :=
  match (pyStrip s).data with
  | [] => none
  | '-' :: rest => (digitsVal rest).map (fun n => -(n : Int))
  | '+' :: rest => (digitsVal rest).map (fun n => (n : Int))
  | l => (digitsVal l).map (fun n => (n : Int))

/-- `row.get("is_house", "False").lower() == "true"` (line 71 / line 106). -/
def isHouse (r : Row) : Bool :=
  pyLower (r.is_house.getD "False") == "true"

/-- The CLI's three-valued `--single_room` choice: `"true"`, `"false"`, `"csv"`. -/
inductive SingleRoomArg
  | strue
  | sfalse
  | scsv
deriving DecidableEq

/-- The run parameters the orchestration logic depends on: the inclusive id
bounds and the single-room policy selector. -/
structure Args where
  start_id : Option Int
  end_id : Option Int
  single_room : SingleRoomArg
deriving DecidableEq

/-- Exceptions raised outside the per-row `try`/`except`, each fatal to the
run: `row["ID"]` missing, `int(row["ID"])` failing, `row["Description"]`
missing. -/
inductive Fatal
  | keyErrorID
  | valueErrorID (s : String)
  | keyErrorDescription (id : Int)
deriving DecidableEq

/-- Engine-level events of a run: a (re)construction of the `Holodeck` model
with a `single_room` value, or a generate call for a row (recording the row,
its parsed id, the `single_room` value of the live model, and whether the
call succeeded). -/
inductive Event
  | construct (single_room : Bool)
  | exec (row : Row) (id : Int) (single_room : Bool) (ok : Bool)
deriving DecidableEq

/-- Outcome of a run: the events in order, and `some f` when the run was
aborted by the fatal exception `f` (the events before the abort are kept). -/
structure RunOutcome where
  events : List Event
  fatal : Option Fatal
deriving DecidableEq

/-- The id-range filter of lines 96-99: `true` when the row is skipped. -/
def skipRow (args : Args) (id : Int) : Bool :=
  (match args.start_id with
   | some lo => id < lo
   | none => false) ||
  (match args.end_id with
   | some hi => hi < id
   | none => false)

/-- Lines 104-117 followed by the generate call: in `csv` mode the model is
re-initialized when the row's `single_room` value differs from the current
one; returns the new current value and the emitted events. -/
def execStep (args : Args) (gen : Int → Bool) (r : Row) (prompt_id : Int)
    (cur : Bool) : Bool × List Event :=
  if args.single_room = SingleRoomArg.scsv then
    let row_single_room := !isHouse r
    if row_single_room = cur then
      (cur, [Event.exec r prompt_id cur (gen prompt_id)])
    else
      (row_single_room,
        [Event.construct row_single_room,
         Event.exec r prompt_id row_single_room (gen prompt_id)])
  else
    (cur, [Event.exec r prompt_id cur (gen prompt_id)])

/-- The loop of lines 92-141 over the (already sorted) prompt list, carrying
`current_single_room`. `gen id` tells whether the generate call for the row
with that id succeeds; either way the loop continues (the `try`/`except` of
lines 123-141). The `ID` lookup and `int` conversion (line 93) happen before
the filter; the `Description` lookup (line 101) happens after it. -/
def csvLoop (args : Args) (gen : Int → Bool) : List Row → Bool → RunOutcome
  | [], _ => ⟨[], none⟩
  | r :: rest, cur =>
    match r.ID with
    | none => ⟨[], some Fatal.keyErrorID⟩
    | some s =>
      match pyInt s with
      | none => ⟨[], some (Fatal.valueErrorID s)⟩
      | some prompt_id =>
        if skipRow args prompt_id then csvLoop args gen rest cur
        else
          match r.Description with
          | none => ⟨[], some (Fatal.keyErrorDescription prompt_id)⟩
          | some _ =>
            let step := execStep args gen r prompt_id cur
            let out := csvLoop args gen rest step.1
            ⟨step.2 ++ out.events, out.fatal⟩

/-- The sort key comparison of line 71: Python's stable `list.sort` with the
boolean key `isHouse` is a stable sort for `false < true`, i.e. for
`isHouse a ≤ isHouse b`. -/
def houseLe (a b : Row) : Bool :=
  !isHouse a || isHouse b

/-- Lines 69-71: in `csv` mode the prompts are stably sorted so that
non-house rows come first; otherwise the file order is kept. -/
def scheduledPrompts (args : Args) (rows : List Row) : List Row :=
  if args.single_room = SingleRoomArg.scsv then rows.mergeSort houseLe else rows

/-- Lines 77-81: the initial `current_single_room` value (`True` in `csv`
mode, otherwise the literal value of the flag). -/
def initialSingleRoom (args : Args) : Bool :=
  match args.single_room with
  | SingleRoomArg.scsv => true
  | SingleRoomArg.strue => true
  | SingleRoomArg.sfalse => false

/-- The whole of `main` after argument parsing: sort (lines 69-71), initial
model construction (lines 83-90), then the row loop (lines 92-141). -/
def runMain (args : Args) (rows : List Row) (gen : Int → Bool) : RunOutcome :=
  let prompts := scheduledPrompts args rows
  let cur := initialSingleRoom args
  let out := csvLoop args gen prompts cur
  ⟨Event.construct cur :: out.events, out.fatal⟩

/-- The parsed id of a row: `int(row["ID"])` when both steps succeed. -/
def rowId (r : Row) : Option Int :=
  r.ID.bind pyInt

/-- The parsed ids present in an input table, in file order. -/
def inputIds (rows : List Row) : List Int :=
  rows.filterMap rowId

/-- Ids of the generate calls of an event list, in order. -/
def execIds (evs : List Event) : List Int :=
  evs.filterMap fun e =>
    match e with
    | Event.exec _ id _ _ => some id
    | _ => none

/-- Rows of the generate calls of an event list, in order. -/
def execRows (evs : List Event) : List Row :=
  evs.filterMap fun e =>
    match e with
    | Event.exec r _ _ _ => some r
    | _ => none

/-- Number of model constructions in an event list. -/
def constructCount (evs : List Event) : Nat :=
  evs.countP fun e =>
    match e with
    | Event.construct _ => true
    | _ => false

/-- The `single_room` value the row's generate call must run with:
fixed under `"true"`/`"false"`, `not is_house` under `"csv"`. -/
def requiredSingleRoom (args : Args) (r : Row) : Bool :=
  match args.single_room with
  | SingleRoomArg.strue => true
  | SingleRoomArg.sfalse => false
  | SingleRoomArg.scsv => !isHouse r

/-- The gen oracle that always succeeds. -/
def allOk : Int → Bool := fun _ => true

/-- Relabel each generate call's success flag with the oracle `gen`,
leaving everything else unchanged. -/
def setOk (gen : Int → Bool) : Event → Event
  | Event.construct m => Event.construct m
  | Event.exec r id m _ => Event.exec r id m (gen id)

/-- `runMain` in `csv` mode with the stable sort replaced by its proved
partition form (non-house rows, then house rows); used to evaluate concrete
`csv`-mode runs. -/
def runPartition (args : Args) (rows : List Row) (gen : Int → Bool) : RunOutcome :=
  let out := csvLoop args gen
    (rows.filter (fun r => !isHouse r) ++ rows.filter (fun r => isHouse r)) true
  ⟨Event.construct true :: out.events, out.fatal⟩

/-- Decimal digits of `n`, most significant first, as characters; the first
argument is recursion fuel (`n` itself suffices). -/
def natCharsAux : Nat → Nat → List Char
  | 0, _ => []
  | fuel + 1, n =>
    if n = 0 then [] else natCharsAux fuel (n / 10) ++ [Nat.digitChar (n % 10)]

/-- Decimal digit characters of `n`, most significant first (`[]` for `0`). -/
def natChars (n : Nat) : List Char :=
  natCharsAux n n

/-- Left-pad a character list with `'0'` to width `w`. -/
def padChars (w : Nat) (l : List Char) : List Char :=
  List.replicate (w - l.length) '0' ++ l

/-- Python's `f"{n:03d}"`: sign, then the decimal digits zero-padded so the
whole field (sign included) has width at least 3. -/
def zfill3 (n : Int) : String :=
  if n < 0 then String.mk ('-' :: padChars 2 (natChars (-n).toNat))
  else String.mk (padChars 3 (natChars n.toNat))

/-- Line 102: `save_dir = results_dir / f"scene_{prompt_id:03d}"`, with
path join written as `/`-separated string concatenation. -/
def saveDir (results_dir : String) (prompt_id : Int) : String :=
  results_dir ++ "/scene_" ++ zfill3 prompt_id

/-- Value of a decimal digit character list, most significant first,
reading each character as `toNat - 48`. -/
def parseDigits (l : List Char) : Nat :=
  l.foldl (fun a c => 10 * a + (c.toNat - 48)) 0

/-- Signed decimal value of a character list: a leading `'-'` negates the
value of the remaining digits. -/
def parseSigned (l : List Char) : Int :=
  match l with
  | [] => 0
  | c :: rest => if c = '-' then -(parseDigits rest : Int) else (parseDigits (c :: rest) : Int)

/-! Concrete rows and run parameters for the spec's scenarios. -/

/-- Scenario row `ID=1, is_house=false`. -/
def row1 : Row := ⟨some "1", some "d1", some "false"⟩

/-- Scenario row `ID=2, is_house=true`. -/
def row2 : Row := ⟨some "2", some "d2", some "true"⟩

/-- Scenario row `ID=3, is_house=false`. -/
def row3 : Row := ⟨some "3", some "d3", some "false"⟩

/-- The three-row scenario table of the spec. -/
def scenarioRows : List Row := [row1, row2, row3]

/-- `csv` mode, no id bounds. -/
def csvArgs : Args := ⟨none, none, SingleRoomArg.scsv⟩

/-- `csv` mode, `start_id = 2`, `end_id = 2`. -/
def csvArgs22 : Args := ⟨some 2, some 2, SingleRoomArg.scsv⟩

/-- `--single_room true`, no id bounds. -/
def singleArgs : Args := ⟨none, none, SingleRoomArg.strue⟩

/-- `--single_room true`, `end_id = 1`. -/
def singleArgsEnd1 : Args := ⟨none, some 1, SingleRoomArg.strue⟩

/-- A gen oracle failing exactly on id 2. -/
def failOn2 : Int → Bool := fun n => !(n == 2)

/-- A row whose `Description` column is missing. -/
def rowNoDesc : Row := ⟨some "5", none, none⟩

/-- A row whose `ID` column does not parse as an integer. -/
def rowBadId : Row := ⟨some "2.5", some "d", none⟩

/-! Helper lemmas. -/

theorem houseLe_trans (a b c : Row) : houseLe a b → houseLe b c → houseLe a c := by
  simp only [houseLe, Bool.or_eq_true, Bool.not_eq_true']
  rintro (h | h) (h' | h') <;> simp_all

theorem houseLe_total (a b : Row) : houseLe a b || houseLe b a := by
  simp only [houseLe]
  cases h : isHouse a <;> cases h' : isHouse b <;> simp_all

/-- Python's stable sort with the boolean key `isHouse` puts the non-house
rows first and the house rows last, each group in original file order. -/
theorem mergeSort_houseLe (l : List Row) :
    l.mergeSort houseLe
      = l.filter (fun r => !isHouse r) ++ l.filter (fun r => isHouse r) := by
  induction l with
  | nil => simp
  | cons a l ih =>
    obtain ⟨l₁, l₂, h1, h2, h3⟩ := List.mergeSort_cons houseLe_trans houseLe_total a l
    by_cases ha : isHouse a
    · have hs := List.sorted_mergeSort houseLe_trans houseLe_total (a :: l)
      rw [h1] at hs
      have hl₂ : ∀ c ∈ l₂, isHouse c = true := by
        intro c hc
        have := (List.pairwise_cons.mp ((List.pairwise_append.mp hs).2.1)).1 c hc
        simpa [houseLe, ha] using this
      have hl₁ : ∀ b ∈ l₁, isHouse b = false := by
        intro b hb
        have := h3 b hb
        simpa [houseLe, ha] using this
      have h2' : l₁ ++ l₂
          = l.filter (fun r => !isHouse r) ++ l.filter (fun r => isHouse r) := by
        rw [← h2, ih]
      have hlen : l₁.length = (l.filter (fun r => !isHouse r)).length := by
        have c1 : (l₁ ++ l₂).countP (fun r => !isHouse r) = l₁.length := by
          rw [List.countP_append]
          have e1 : l₁.countP (fun r => !isHouse r) = l₁.length :=
            List.countP_eq_length.mpr (by intro b hb; simp [hl₁ b hb])
          have e2 : l₂.countP (fun r => !isHouse r) = 0 :=
            List.countP_eq_zero.mpr (by intro c hc; simp [hl₂ c hc])
          omega
        have c2 : ((l.filter (fun r => !isHouse r)) ++ (l.filter (fun r => isHouse r))).countP
            (fun r => !isHouse r) = (l.filter (fun r => !isHouse r)).length := by
          rw [List.countP_append]
          have e1 : (l.filter (fun r => !isHouse r)).countP (fun r => !isHouse r)
              = (l.filter (fun r => !isHouse r)).length :=
            List.countP_eq_length.mpr (by intro b hb; exact (List.mem_filter.mp hb).2)
          have e2 : (l.filter (fun r => isHouse r)).countP (fun r => !isHouse r) = 0 :=
            List.countP_eq_zero.mpr
              (by intro c hc; simp [(List.mem_filter.mp hc).2])
          omega
        rw [h2'] at c1
        omega
      obtain ⟨e1, e2⟩ := List.append_inj h2' hlen
      rw [h1, e1, e2, List.filter_cons, List.filter_cons]
      simp [ha]
    · have hl₁ : l₁ = [] := by
        rw [List.eq_nil_iff_forall_not_mem]
        intro b hb
        have := h3 b hb
        simp [houseLe, ha] at this
      subst hl₁
      simp only [List.nil_append] at h1 h2
      rw [h1, h2.symm.trans ih, List.filter_cons, List.filter_cons]
      simp [ha]

/-- In `csv` mode `runMain` is `runPartition`: the sorted prompt order is
the non-house rows in file order followed by the house rows in file order. -/
theorem runMain_csv (args : Args) (rows : List Row) (gen : Int → Bool)
    (h : args.single_room = SingleRoomArg.scsv) :
    runMain args rows gen = runPartition args rows gen := by
  simp [runMain, runPartition, scheduledPrompts, initialSingleRoom, h, mergeSort_houseLe]

/-- The scheduled prompt order is a permutation of the input rows. -/
theorem scheduledPrompts_perm (args : Args) (rows : List Row) :
    List.Perm (scheduledPrompts args rows) rows := by
  rw [scheduledPrompts]
  split
  · exact List.mergeSort_perm rows houseLe
  · exact List.Perm.refl rows

/-- Unfolding: a row whose `ID` column is missing aborts the loop. -/
theorem csvLoop_cons_noID (args : Args) (gen : Int → Bool) (r : Row) (rest : List Row)
    (cur : Bool) (hID : r.ID = none) :
    csvLoop args gen (r :: rest) cur = ⟨[], some Fatal.keyErrorID⟩ := by
  simp only [csvLoop, hID]

/-- Unfolding: a row whose `ID` does not parse aborts the loop. -/
theorem csvLoop_cons_badInt (args : Args) (gen : Int → Bool) (r : Row) (rest : List Row)
    (cur : Bool) (s : String) (hID : r.ID = some s) (hpi : pyInt s = none) :
    csvLoop args gen (r :: rest) cur = ⟨[], some (Fatal.valueErrorID s)⟩ := by
  simp only [csvLoop, hID, hpi]

/-- Unfolding: a row outside the id range is skipped. -/
theorem csvLoop_cons_skip (args : Args) (gen : Int → Bool) (r : Row) (rest : List Row)
    (cur : Bool) (s : String) (pid : Int) (hID : r.ID = some s) (hpi : pyInt s = some pid)
    (hskip : skipRow args pid = true) :
    csvLoop args gen (r :: rest) cur = csvLoop args gen rest cur := by
  simp only [csvLoop, hID, hpi]
  rw [if_pos hskip]

/-- Unfolding: a row inside the id range whose `Description` column is
missing aborts the loop. -/
theorem csvLoop_cons_noDesc (args : Args) (gen : Int → Bool) (r : Row) (rest : List Row)
    (cur : Bool) (s : String) (pid : Int) (hID : r.ID = some s) (hpi : pyInt s = some pid)
    (hskip : ¬skipRow args pid = true) (hD : r.Description = none) :
    csvLoop args gen (r :: rest) cur = ⟨[], some (Fatal.keyErrorDescription pid)⟩ := by
  simp only [csvLoop, hID, hpi, hD]
  rw [if_neg hskip]

/-- Unfolding: a row inside the id range with a `Description` executes. -/
theorem csvLoop_cons_exec (args : Args) (gen : Int → Bool) (r : Row) (rest : List Row)
    (cur : Bool) (s : String) (pid : Int) (d : String) (hID : r.ID = some s)
    (hpi : pyInt s = some pid) (hskip : ¬skipRow args pid = true)
    (hD : r.Description = some d) :
    csvLoop args gen (r :: rest) cur
      = ⟨(execStep args gen r pid cur).2
          ++ (csvLoop args gen rest (execStep args gen r pid cur).1).events,
         (csvLoop args gen rest (execStep args gen r pid cur).1).fatal⟩ := by
  simp only [csvLoop, hID, hpi, hD]
  rw [if_neg hskip]

/-- The `current_single_room` value after an executed row: the row's
required value in `csv` mode, unchanged otherwise. -/
theorem execStep_fst (args : Args) (gen : Int → Bool) (r : Row) (pid : Int) (cur : Bool) :
    (execStep args gen r pid cur).1
      = if args.single_room = SingleRoomArg.scsv then !isHouse r else cur := by
  by_cases h1 : args.single_room = SingleRoomArg.scsv <;>
    cases cur <;> cases hh : isHouse r <;> simp [execStep, h1, hh]

/-- The events of an executed row: an optional re-initialization, then the
generate call, run with the post-step `single_room` value. -/
theorem execStep_snd (args : Args) (gen : Int → Bool) (r : Row) (pid : Int) (cur : Bool) :
    (execStep args gen r pid cur).2
      = (if args.single_room = SingleRoomArg.scsv ∧ (!isHouse r) ≠ cur
          then [Event.construct (!isHouse r)] else [])
        ++ [Event.exec r pid (execStep args gen r pid cur).1 (gen pid)] := by
  by_cases h1 : args.single_room = SingleRoomArg.scsv <;>
    cases cur <;> cases hh : isHouse r <;> simp [execStep, h1, hh]

/-- The run is one event-list function of the gen oracle: failures only flip
the recorded success flags, they change neither which calls happen nor the
fatal outcome. -/
theorem csvLoop_setOk (args : Args) (gen : Int → Bool) (rows : List Row) (cur : Bool) :
    csvLoop args gen rows cur
      = ⟨(csvLoop args allOk rows cur).events.map (setOk gen),
         (csvLoop args allOk rows cur).fatal⟩ := by
  induction rows, cur using csvLoop.induct args gen with
  | case1 cur => rfl
  | case2 r rest cur hID =>
    rw [csvLoop_cons_noID args gen r rest cur hID, csvLoop_cons_noID args allOk r rest cur hID]
    rfl
  | case3 r rest cur s hID hpi =>
    rw [csvLoop_cons_badInt args gen r rest cur s hID hpi,
      csvLoop_cons_badInt args allOk r rest cur s hID hpi]
    rfl
  | case4 r rest cur s hID pid hpi hskip ih =>
    rw [csvLoop_cons_skip args gen r rest cur s pid hID hpi hskip,
      csvLoop_cons_skip args allOk r rest cur s pid hID hpi hskip]
    exact ih
  | case5 r rest cur s hID pid hpi hskip hD =>
    rw [csvLoop_cons_noDesc args gen r rest cur s pid hID hpi hskip hD,
      csvLoop_cons_noDesc args allOk r rest cur s pid hID hpi hskip hD]
    rfl
  | case6 r rest cur s hID pid hpi hskip d hD step ih =>
    rw [csvLoop_cons_exec args gen r rest cur s pid d hID hpi hskip hD,
      csvLoop_cons_exec args allOk r rest cur s pid d hID hpi hskip hD]
    have hfst : (execStep args allOk r pid cur).1 = (execStep args gen r pid cur).1 := by
      rw [execStep_fst, execStep_fst]
    have hsnd : (execStep args gen r pid cur).2
        = ((execStep args allOk r pid cur).2).map (setOk gen) := by
      rw [execStep_snd args gen, execStep_snd args allOk, hfst]
      split_ifs <;> simp [setOk, allOk]
    have ih' := ih
    rw [ih', hfst, List.map_append, hsnd]

/-- The generate call of every `exec` event runs with the `single_room`
value required for that row in `csv` mode, and with the loop's entry value
otherwise. -/
theorem csvLoop_mode (args : Args) (gen : Int → Bool) (rows : List Row) (cur : Bool) :
    ∀ r id m ok, Event.exec r id m ok ∈ (csvLoop args gen rows cur).events →
      m = (if args.single_room = SingleRoomArg.scsv then !isHouse r else cur) := by
  induction rows, cur using csvLoop.induct args gen with
  | case1 cur => intro r id m ok h; simp [csvLoop] at h
  | case2 r rest cur hID =>
    intro r' id m ok h; rw [csvLoop_cons_noID args gen r rest cur hID] at h; simp at h
  | case3 r rest cur s hID hpi =>
    intro r' id m ok h; rw [csvLoop_cons_badInt args gen r rest cur s hID hpi] at h; simp at h
  | case4 r rest cur s hID pid hpi hskip ih =>
    intro r' id m ok h
    rw [csvLoop_cons_skip args gen r rest cur s pid hID hpi hskip] at h
    exact ih r' id m ok h
  | case5 r rest cur s hID pid hpi hskip hD =>
    intro r' id m ok h
    rw [csvLoop_cons_noDesc args gen r rest cur s pid hID hpi hskip hD] at h; simp at h
  | case6 r rest cur s hID pid hpi hskip d hD step ih =>
    intro r' id m ok h
    rw [csvLoop_cons_exec args gen r rest cur s pid d hID hpi hskip hD] at h
    simp only [RunOutcome.mk.injEq] at h
    rcases List.mem_append.mp h with h | h
    · rw [execStep_snd] at h
      rcases List.mem_append.mp h with h | h
      · split_ifs at h with hc
        · simp at h
        · simp at h
      · simp only [List.mem_singleton, Event.exec.injEq] at h
        obtain ⟨hr, _, hm, _⟩ := h
        rw [hr, hm, execStep_fst]
    · have := ih r' id m ok h
      rw [execStep_fst] at this
      split_ifs at this ⊢ <;> simp_all

/-- With all rows marked `is_house` and the current value already `False`,
the loop never re-initializes the model. -/
theorem csvLoop_constructs_house_false (args : Args) (gen : Int → Bool)
    (rows : List Row) (cur : Bool) :
    (∀ r ∈ rows, isHouse r = true) → cur = false →
      constructCount (csvLoop args gen rows cur).events = 0 := by
  induction rows, cur using csvLoop.induct args gen with
  | case1 cur => intro _ _; simp [csvLoop, constructCount]
  | case2 r rest cur hID =>
    intro _ _; rw [csvLoop_cons_noID args gen r rest cur hID]; simp [constructCount]
  | case3 r rest cur s hID hpi =>
    intro _ _; rw [csvLoop_cons_badInt args gen r rest cur s hID hpi]; simp [constructCount]
  | case4 r rest cur s hID pid hpi hskip ih =>
    intro hall hcur
    rw [csvLoop_cons_skip args gen r rest cur s pid hID hpi hskip]
    exact ih (fun r hr => hall r (List.mem_cons_of_mem _ hr)) hcur
  | case5 r rest cur s hID pid hpi hskip hD =>
    intro _ _
    rw [csvLoop_cons_noDesc args gen r rest cur s pid hID hpi hskip hD]; simp [constructCount]
  | case6 r rest cur s hID pid hpi hskip d hD step ih =>
    intro hall hcur
    have hr : isHouse r = true := hall r (List.mem_cons_self _ _)
    have hfst : (execStep args gen r pid cur).1 = false := by
      rw [execStep_fst]; split_ifs <;> simp [hr, hcur]
    have hrest : constructCount
        (csvLoop args gen rest (execStep args gen r pid cur).1).events = 0 :=
      ih (fun r hr => hall r (List.mem_cons_of_mem _ hr)) (by exact hfst)
    rw [csvLoop_cons_exec args gen r rest cur s pid d hID hpi hskip hD]
    have h2 : ¬(args.single_room = SingleRoomArg.scsv ∧ (!isHouse r) ≠ cur) := by
      simp [hr, hcur]
    simp only [constructCount] at hrest ⊢
    rw [execStep_snd, if_neg h2]
    simp [List.countP_append, List.countP_cons, hrest]

/-- Over rows all marked `is_house`, the loop re-initializes the model at
most once (at the first executed row, when the current value is `True`). -/
theorem csvLoop_constructs_house (args : Args) (gen : Int → Bool)
    (rows : List Row) (cur : Bool) :
    (∀ r ∈ rows, isHouse r = true) →
      constructCount (csvLoop args gen rows cur).events ≤ 1 := by
  induction rows, cur using csvLoop.induct args gen with
  | case1 cur => intro _; simp [csvLoop, constructCount]
  | case2 r rest cur hID =>
    intro _; rw [csvLoop_cons_noID args gen r rest cur hID]; simp [constructCount]
  | case3 r rest cur s hID hpi =>
    intro _; rw [csvLoop_cons_badInt args gen r rest cur s hID hpi]; simp [constructCount]
  | case4 r rest cur s hID pid hpi hskip ih =>
    intro hall
    rw [csvLoop_cons_skip args gen r rest cur s pid hID hpi hskip]
    exact ih (fun r hr => hall r (List.mem_cons_of_mem _ hr))
  | case5 r rest cur s hID pid hpi hskip hD =>
    intro _
    rw [csvLoop_cons_noDesc args gen r rest cur s pid hID hpi hskip hD]; simp [constructCount]
  | case6 r rest cur s hID pid hpi hskip d hD step ih =>
    intro hall
    have hr : isHouse r = true := hall r (List.mem_cons_self _ _)
    have hallrest := fun r hr => hall r (List.mem_cons_of_mem _ hr)
    have hfst : (execStep args gen r pid cur).1
        = (if args.single_room = SingleRoomArg.scsv then false else cur) := by
      rw [execStep_fst]; split_ifs <;> simp [hr]
    rw [csvLoop_cons_exec args gen r rest cur s pid d hID hpi hskip hD]
    by_cases hcsv : args.single_room = SingleRoomArg.scsv
    · have hrest : constructCount
          (csvLoop args gen rest (execStep args gen r pid cur).1).events = 0 :=
        csvLoop_constructs_house_false args gen rest _ hallrest (by rw [hfst, if_pos hcsv])
      simp only [constructCount] at hrest ⊢
      rw [execStep_snd]
      split_ifs with h2
      · simp [List.countP_append, List.countP_cons, hrest]
      · simp [List.countP_append, List.countP_cons, hrest]
    · have hrest : constructCount
          (csvLoop args gen rest (execStep args gen r pid cur).1).events ≤ 1 :=
        ih hallrest
      simp only [constructCount] at hrest ⊢
      rw [execStep_snd]
      have h2 : ¬(args.single_room = SingleRoomArg.scsv ∧ (!isHouse r) ≠ cur) := by
        simp [hcsv]
      rw [if_neg h2]
      simp only [List.nil_append, List.countP_cons]
      simpa using hrest

/-- Over a list whose non-house rows all precede its house rows, the loop
entered with `current_single_room = True` re-initializes at most once. -/
theorem csvLoop_constructs_partitioned (args : Args) (gen : Int → Bool) :
    ∀ (A B : List Row), (∀ r ∈ A, isHouse r = false) → (∀ r ∈ B, isHouse r = true) →
      constructCount (csvLoop args gen (A ++ B) true).events ≤ 1 := by
  intro A
  induction A with
  | nil =>
    intro B _ hB
    simpa using csvLoop_constructs_house args gen B true hB
  | cons a A ih =>
    intro B hA hB
    have ha : isHouse a = false := hA a (List.mem_cons_self _ _)
    have hArest := fun r hr => hA r (List.mem_cons_of_mem _ hr)
    rw [List.cons_append]
    cases hID : a.ID with
    | none => rw [csvLoop_cons_noID args gen a (A ++ B) true hID]; simp [constructCount]
    | some s =>
      cases hpi : pyInt s with
      | none => rw [csvLoop_cons_badInt args gen a (A ++ B) true s hID hpi]; simp [constructCount]
      | some pid =>
        by_cases hskip : skipRow args pid = true
        · rw [csvLoop_cons_skip args gen a (A ++ B) true s pid hID hpi hskip]
          exact ih B hArest hB
        · cases hD : a.Description with
          | none =>
            rw [csvLoop_cons_noDesc args gen a (A ++ B) true s pid hID hpi hskip hD]
            simp [constructCount]
          | some d =>
            have hfst : (execStep args gen a pid true).1 = true := by
              rw [execStep_fst]; split_ifs <;> simp [ha]
            have hrest : constructCount
                (csvLoop args gen (A ++ B) (execStep args gen a pid true).1).events ≤ 1 := by
              rw [hfst]; exact ih B hArest hB
            rw [csvLoop_cons_exec args gen a (A ++ B) true s pid d hID hpi hskip hD]
            have h2 : ¬(args.single_room = SingleRoomArg.scsv ∧ (!isHouse a) ≠ true) := by
              simp [ha]
            simp only [constructCount] at hrest ⊢
            rw [execStep_snd, if_neg h2]
            simp only [List.nil_append, List.countP_cons, List.countP_append]
            simpa using hrest

/-- On a completed loop, the executed ids are exactly the parsed ids of the
rows, in row order, filtered by the id range. -/
theorem csvLoop_execIds (args : Args) (gen : Int → Bool) (rows : List Row) (cur : Bool) :
    (csvLoop args gen rows cur).fatal = none →
      execIds (csvLoop args gen rows cur).events
        = (rows.filterMap rowId).filter (fun n => !skipRow args n) := by
  induction rows, cur using csvLoop.induct args gen with
  | case1 cur => intro _; simp [csvLoop, execIds]
  | case2 r rest cur hID =>
    rw [csvLoop_cons_noID args gen r rest cur hID]; intro h; simp at h
  | case3 r rest cur s hID hpi =>
    rw [csvLoop_cons_badInt args gen r rest cur s hID hpi]; intro h; simp at h
  | case4 r rest cur s hID pid hpi hskip ih =>
    rw [csvLoop_cons_skip args gen r rest cur s pid hID hpi hskip]
    intro h
    have hid : rowId r = some pid := by simp [rowId, hID, hpi]
    rw [ih h, List.filterMap_cons, hid, List.filter_cons]
    simp [hskip]
  | case5 r rest cur s hID pid hpi hskip hD =>
    rw [csvLoop_cons_noDesc args gen r rest cur s pid hID hpi hskip hD]; intro h; simp at h
  | case6 r rest cur s hID pid hpi hskip d hD step ih =>
    rw [csvLoop_cons_exec args gen r rest cur s pid d hID hpi hskip hD]
    intro h
    have hrest : execIds (csvLoop args gen rest (execStep args gen r pid cur).1).events
        = (rest.filterMap rowId).filter (fun n => !skipRow args n) := ih h
    have hid : rowId r = some pid := by simp [rowId, hID, hpi]
    have hsk : skipRow args pid = false := by
      cases hx : skipRow args pid
      · rfl
      · exact absurd hx hskip
    simp only [execIds, List.filterMap_append] at hrest ⊢
    rw [execStep_snd, List.filterMap_cons, hid, List.filter_cons]
    simp only [hsk, Bool.not_false, if_pos]
    simp only [List.filterMap_append]
    split_ifs with hc <;> simp [hrest]

/-- On a completed loop with no id bounds, every row executes, in order. -/
theorem csvLoop_execRows (args : Args) (gen : Int → Bool) (rows : List Row) (cur : Bool) :
    args.start_id = none → args.end_id = none →
      (csvLoop args gen rows cur).fatal = none →
        execRows (csvLoop args gen rows cur).events = rows := by
  induction rows, cur using csvLoop.induct args gen with
  | case1 cur => intro _ _ _; simp [csvLoop, execRows]
  | case2 r rest cur hID =>
    rw [csvLoop_cons_noID args gen r rest cur hID]; intro _ _ h; simp at h
  | case3 r rest cur s hID hpi =>
    rw [csvLoop_cons_badInt args gen r rest cur s hID hpi]; intro _ _ h; simp at h
  | case4 r rest cur s hID pid hpi hskip ih =>
    intro hs he
    exact absurd hskip (by simp [skipRow, hs, he])
  | case5 r rest cur s hID pid hpi hskip hD =>
    rw [csvLoop_cons_noDesc args gen r rest cur s pid hID hpi hskip hD]; intro _ _ h; simp at h
  | case6 r rest cur s hID pid hpi hskip d hD step ih =>
    rw [csvLoop_cons_exec args gen r rest cur s pid d hID hpi hskip hD]
    intro hs he h
    have hrest : execRows (csvLoop args gen rest (execStep args gen r pid cur).1).events
        = rest := ih hs he h
    simp only [execRows, List.filterMap_append] at hrest ⊢
    rw [execStep_snd]
    split_ifs with hc
    · simp only [List.filterMap_append]
      simp [hrest]
    · simp only [List.filterMap_append]
      simp [hrest]

/-- A loop in which every row is excluded by the id range does nothing and
completes. -/
theorem csvLoop_all_skipped (args : Args) (gen : Int → Bool) (rows : List Row) (cur : Bool) :
    (∀ r ∈ rows, ∃ n, rowId r = some n ∧ skipRow args n = true) →
      csvLoop args gen rows cur = ⟨[], none⟩ := by
  induction rows, cur using csvLoop.induct args gen with
  | case1 cur => intro _; rfl
  | case2 r rest cur hID =>
    intro h
    obtain ⟨n, hn, _⟩ := h r (List.mem_cons_self _ _)
    simp [rowId, hID] at hn
  | case3 r rest cur s hID hpi =>
    intro h
    obtain ⟨n, hn, _⟩ := h r (List.mem_cons_self _ _)
    simp [rowId, hID, hpi] at hn
  | case4 r rest cur s hID pid hpi hskip ih =>
    intro h
    rw [csvLoop_cons_skip args gen r rest cur s pid hID hpi hskip]
    exact ih (fun r hr => h r (List.mem_cons_of_mem _ hr))
  | case5 r rest cur s hID pid hpi hskip hD =>
    intro h
    obtain ⟨n, hn, hsk⟩ := h r (List.mem_cons_self _ _)
    simp [rowId, hID, hpi] at hn
    rw [← hn] at hsk
    exact absurd hsk hskip
  | case6 r rest cur s hID pid hpi hskip d hD step ih =>
    intro h
    obtain ⟨n, hn, hsk⟩ := h r (List.mem_cons_self _ _)
    simp [rowId, hID, hpi] at hn
    rw [← hn] at hsk
    exact absurd hsk hskip

/-- A row whose `ID` is missing or unparseable makes the loop abort
fatally, wherever it sits and whatever the id bounds. -/
theorem csvLoop_badId_fatal (args : Args) (gen : Int → Bool) (rows : List Row) (cur : Bool) :
    (∃ r ∈ rows, rowId r = none) →
      (csvLoop args gen rows cur).fatal ≠ none := by
  induction rows, cur using csvLoop.induct args gen with
  | case1 cur => rintro ⟨r, hr, _⟩; simp at hr
  | case2 r rest cur hID =>
    intro _
    rw [csvLoop_cons_noID args gen r rest cur hID]
    simp
  | case3 r rest cur s hID hpi =>
    intro _
    rw [csvLoop_cons_badInt args gen r rest cur s hID hpi]
    simp
  | case4 r rest cur s hID pid hpi hskip ih =>
    rintro ⟨r', hr', hid⟩
    rw [csvLoop_cons_skip args gen r rest cur s pid hID hpi hskip]
    rcases List.mem_cons.mp hr' with h | h
    · rw [h] at hid; simp [rowId, hID, hpi] at hid
    · exact ih ⟨r', h, hid⟩
  | case5 r rest cur s hID pid hpi hskip hD =>
    intro _
    rw [csvLoop_cons_noDesc args gen r rest cur s pid hID hpi hskip hD]
    simp
  | case6 r rest cur s hID pid hpi hskip d hD step ih =>
    rintro ⟨r', hr', hid⟩
    rw [csvLoop_cons_exec args gen r rest cur s pid d hID hpi hskip hD]
    rcases List.mem_cons.mp hr' with h | h
    · rw [h] at hid; simp [rowId, hID, hpi] at hid
    · exact ih ⟨r', h, hid⟩

/-- On a completed loop, every row's `ID` parsed. -/
theorem csvLoop_ok_rowId (args : Args) (gen : Int → Bool) (rows : List Row) (cur : Bool) :
    (csvLoop args gen rows cur).fatal = none →
      ∀ r ∈ rows, ∃ n, rowId r = some n := by
  intro hok r hr
  cases hid : rowId r with
  | some n => exact ⟨n, rfl⟩
  | none => exact absurd hok (csvLoop_badId_fatal args gen rows cur ⟨r, hr, hid⟩)

/-- On a completed loop, every row inside the id range had a `Description`. -/
theorem csvLoop_ok_description (args : Args) (gen : Int → Bool) (rows : List Row) (cur : Bool) :
    (csvLoop args gen rows cur).fatal = none →
      ∀ r ∈ rows, ∀ n, rowId r = some n → skipRow args n = false →
        r.Description.isSome = true := by
  induction rows, cur using csvLoop.induct args gen with
  | case1 cur => intro _ r hr; simp at hr
  | case2 r rest cur hID =>
    rw [csvLoop_cons_noID args gen r rest cur hID]; intro h; simp at h
  | case3 r rest cur s hID hpi =>
    rw [csvLoop_cons_badInt args gen r rest cur s hID hpi]; intro h; simp at h
  | case4 r rest cur s hID pid hpi hskip ih =>
    rw [csvLoop_cons_skip args gen r rest cur s pid hID hpi hskip]
    intro h r' hr' n hn hnskip
    rcases List.mem_cons.mp hr' with hh | hh
    · rw [hh] at hn
      simp [rowId, hID, hpi] at hn
      rw [← hn] at hnskip
      rw [hnskip] at hskip
      simp at hskip
    · exact ih h r' hh n hn hnskip
  | case5 r rest cur s hID pid hpi hskip hD =>
    rw [csvLoop_cons_noDesc args gen r rest cur s pid hID hpi hskip hD]; intro h; simp at h
  | case6 r rest cur s hID pid hpi hskip d hD step ih =>
    rw [csvLoop_cons_exec args gen r rest cur s pid d hID hpi hskip hD]
    intro h r' hr' n hn hnskip
    rcases List.mem_cons.mp hr' with hh | hh
    · rw [hh, hD]; rfl
    · exact ih h r' hh n hn hnskip

/-- Digit characters have the expected code points. -/
theorem digitChar_toNat (d : Nat) (h : d < 10) : (Nat.digitChar d).toNat = 48 + d := by
  interval_cases d <;> rfl

/-- Digit characters are not the minus sign. -/
theorem digitChar_ne_dash (d : Nat) (h : d < 10) : Nat.digitChar d ≠ '-' := by
  interval_cases d <;> decide

/-- Every character produced by `natCharsAux` is a digit character. -/
theorem natCharsAux_mem (fuel : Nat) :
    ∀ (n : Nat), ∀ c ∈ natCharsAux fuel n, ∃ d, d < 10 ∧ c = Nat.digitChar d := by
  induction fuel with
  | zero => intro n c hc; simp [natCharsAux] at hc
  | succ fuel ih =>
    intro n c hc
    by_cases hn : n = 0
    · simp [natCharsAux, hn] at hc
    · rw [natCharsAux, if_neg hn] at hc
      rcases List.mem_append.mp hc with h | h
      · exact ih _ c h
      · simp only [List.mem_singleton] at h
        exact ⟨n % 10, Nat.mod_lt _ (by norm_num), h⟩

/-- Appending one digit multiplies the parsed value by ten and adds it. -/
theorem parseDigits_concat (l : List Char) (c : Char) :
    parseDigits (l ++ [c]) = 10 * parseDigits l + (c.toNat - 48) := by
  simp [parseDigits, List.foldl_append]

/-- `natCharsAux` followed by parsing is the identity when the fuel
suffices. -/
theorem parseDigits_natCharsAux (fuel : Nat) :
    ∀ (n : Nat), n ≤ fuel → parseDigits (natCharsAux fuel n) = n := by
  induction fuel with
  | zero =>
    intro n h
    interval_cases n
    simp [natCharsAux, parseDigits]
  | succ fuel ih =>
    intro n h
    by_cases hn : n = 0
    · simp [natCharsAux, hn, parseDigits]
    · have hdiv : n / 10 < n := Nat.div_lt_self (Nat.pos_of_ne_zero hn) (by norm_num)
      rw [natCharsAux, if_neg hn, parseDigits_concat, ih (n / 10) (by omega)]
      have h10 : n % 10 < 10 := Nat.mod_lt _ (by norm_num)
      rw [digitChar_toNat _ h10]
      omega

/-- Parsing ignores one leading zero character. -/
theorem parseDigits_cons_zero (l : List Char) : parseDigits ('0' :: l) = parseDigits l := by
  have h0 : (10 * 0 + ('0'.toNat - 48)) = 0 := by decide
  simp [parseDigits, List.foldl_cons, h0]

/-- Parsing ignores leading zero padding. -/
theorem parseDigits_replicate (k : Nat) (l : List Char) :
    parseDigits (List.replicate k '0' ++ l) = parseDigits l := by
  induction k with
  | zero => simp
  | succ k ih => rw [List.replicate_succ, List.cons_append, parseDigits_cons_zero, ih]

/-- Parsing the digit characters of `n` gives back `n`. -/
theorem natChars_roundtrip (n : Nat) : parseDigits (natChars n) = n :=
  parseDigits_natCharsAux n n le_rfl

/-- No character of a zero-padded digit string is the minus sign. -/
theorem padChars_ne_dash (w m : Nat) : ∀ c ∈ padChars w (natChars m), c ≠ '-' := by
  intro c hc
  rcases List.mem_append.mp hc with h | h
  · rw [List.eq_of_mem_replicate h]; decide
  · obtain ⟨d, hd, hc'⟩ := natCharsAux_mem m m c h
    rw [hc']
    exact digitChar_ne_dash d hd

/-- Zero-padding to width 3 is never empty. -/
theorem padChars3_ne_nil (l : List Char) : padChars 3 l ≠ [] := by
  have hlen : (padChars 3 l).length = (3 - l.length) + l.length := by
    simp [padChars]
  intro h
  rw [h] at hlen
  simp at hlen
  omega

/-- Reading back the formatted id gives the id: `zfill3` loses nothing. -/
theorem parseSigned_zfill3 (n : Int) : parseSigned (zfill3 n).data = n := by
  rw [zfill3]
  split_ifs with hneg
  · show parseSigned ('-' :: padChars 2 (natChars (-n).toNat)) = n
    rw [parseSigned, if_pos rfl, padChars, parseDigits_replicate, natChars_roundtrip]
    omega
  · show parseSigned (padChars 3 (natChars n.toNat)) = n
    obtain ⟨c, rest, hcr⟩ := List.exists_cons_of_ne_nil (padChars3_ne_nil (natChars n.toNat))
    have hcdash : c ≠ '-' :=
      padChars_ne_dash 3 n.toNat c (hcr ▸ List.mem_cons_self c rest)
    rw [hcr, parseSigned, if_neg hcdash, ← hcr, padChars, parseDigits_replicate,
      natChars_roundtrip]
    omega

/-- Distinct ids have distinct `zfill3` renderings. -/
theorem zfill3_injective : Function.Injective zfill3 := by
  intro a b h
  have ha := parseSigned_zfill3 a
  rw [h, parseSigned_zfill3 b] at ha
  exact ha.symm

/-- `runMain` unfolded: initial construction then the loop. -/
theorem runMain_def (args : Args) (rows : List Row) (gen : Int → Bool) :
    runMain args rows gen
      = ⟨Event.construct (initialSingleRoom args)
          :: (csvLoop args gen (scheduledPrompts args rows) (initialSingleRoom args)).events,
         (csvLoop args gen (scheduledPrompts args rows) (initialSingleRoom args)).fatal⟩ := rfl

/-- The skip test is exactly the complement of the inclusive id range. -/
theorem skipRow_eq_false (args : Args) (n : Int) :
    skipRow args n = false ↔
      ((∀ lo, args.start_id = some lo → lo ≤ n)
        ∧ (∀ hi, args.end_id = some hi → n ≤ hi)) := by
  obtain ⟨s, e, m⟩ := args
  cases s <;> cases e <;> simp [skipRow] <;> omega

/-- C1: under the `csv` (PER_ROW) policy the executed order is the input
stably sorted with single-room (non-house) requests first and multi-room
(house) requests last, each group in original relative order; on the table
`[ID=1 house=false, ID=2 house=true, ID=3 house=false]` with no id bounds
the execution order is `1, 3, 2` with exactly one engine reconstruction,
located between the second and third executed request. -/
theorem c1_per_row_schedule :
    (∀ (args : Args) (rows : List Row) (gen : Int → Bool),
        args.single_room = SingleRoomArg.scsv →
        args.start_id = none → args.end_id = none →
        (runMain args rows gen).fatal = none →
        execRows (runMain args rows gen).events
          = rows.filter (fun r => !isHouse r) ++ rows.filter (fun r => isHouse r))
    ∧ runMain csvArgs scenarioRows allOk
        = ⟨[Event.construct true,
            Event.exec row1 1 true true,
            Event.exec row3 3 true true,
            Event.construct false,
            Event.exec row2 2 false true], none⟩ := by
  constructor
  · intro args rows gen hcsv hs he hok
    rw [runMain_def] at hok ⊢
    have h1 := csvLoop_execRows args gen (scheduledPrompts args rows)
      (initialSingleRoom args) hs he hok
    have h2 : execRows (Event.construct (initialSingleRoom args)
        :: (csvLoop args gen (scheduledPrompts args rows) (initialSingleRoom args)).events)
        = execRows (csvLoop args gen (scheduledPrompts args rows)
            (initialSingleRoom args)).events := by
      simp [execRows]
    rw [h2, h1, scheduledPrompts, if_pos hcsv, mergeSort_houseLe]
  · rw [runMain_csv csvArgs scenarioRows allOk rfl]
    decide

/-- C1 witness: the general clause applied to the concrete scenario. -/
theorem c1_witness :
    execRows (runMain csvArgs scenarioRows allOk).events
      = scenarioRows.filter (fun r => !isHouse r)
        ++ scenarioRows.filter (fun r => isHouse r) :=
  c1_per_row_schedule.1 csvArgs scenarioRows allOk rfl rfl rfl
    (by rw [runMain_csv csvArgs scenarioRows allOk rfl]; decide)

/-- C2: under the `csv` (PER_ROW) policy, a batch containing both kinds of
request constructs the engine at most twice over the whole run (initial
construction plus re-initializations), for every arrival order and every id
filtering. -/
theorem c2_constructions_bounded (args : Args) (rows : List Row) (gen : Int → Bool)
    (hcsv : args.single_room = SingleRoomArg.scsv)
    (hsingle : ∃ r ∈ rows, isHouse r = false)
    (hmulti : ∃ r ∈ rows, isHouse r = true) :
    constructCount (runMain args rows gen).events ≤ 2 := by
  rw [runMain_csv args rows gen hcsv]
  show constructCount (Event.construct true
    :: (csvLoop args gen (rows.filter (fun r => !isHouse r)
        ++ rows.filter (fun r => isHouse r)) true).events) ≤ 2
  have hA : ∀ r ∈ rows.filter (fun r => !isHouse r), isHouse r = false := by
    intro r hr
    simpa using (List.mem_filter.mp hr).2
  have hB : ∀ r ∈ rows.filter (fun r => isHouse r), isHouse r = true :=
    fun r hr => (List.mem_filter.mp hr).2
  have h := csvLoop_constructs_partitioned args gen _ _ hA hB
  simp [constructCount, List.countP_cons] at h ⊢
  omega

/-- C2 witness: the scenario table contains both kinds. -/
theorem c2_witness : constructCount (runMain csvArgs scenarioRows allOk).events ≤ 2 :=
  c2_constructions_bounded csvArgs scenarioRows allOk rfl
    ⟨row1, by decide, by decide⟩ ⟨row2, by decide, by decide⟩

/-- C3 counterexample: with `start_id = end_id = 2` on the scenario table
under the `csv` policy, only id 2 executes, but the engine is constructed
twice (the unconditional initial single-room construction of lines 83-90,
then the multi-room re-initialization), not once as the claim states. -/
theorem c3_counterexample :
    execIds (runMain csvArgs22 scenarioRows allOk).events = [2]
      ∧ constructCount (runMain csvArgs22 scenarioRows allOk).events = 2
      ∧ ¬constructCount (runMain csvArgs22 scenarioRows allOk).events = 1 := by
  rw [runMain_csv csvArgs22 scenarioRows allOk rfl]
  decide

/-- C3 amended: only id 2 executes; the engine is constructed exactly
twice — initially in single-room mode, then re-initialized once in
multi-room mode — and the generate call for id 2 runs in multi-room mode. -/
theorem c3_amended_run :
    runMain csvArgs22 scenarioRows allOk
      = ⟨[Event.construct true, Event.construct false,
          Event.exec row2 2 false true], none⟩ := by
  rw [runMain_csv csvArgs22 scenarioRows allOk rfl]
  decide

/-- C4: a generate failure is recorded for its request and never aborts the
batch: the run's event list is the all-success run's event list with only
the success flags relabelled, and the fatal outcome is unchanged; on ids
`1, 2, 3` under ALWAYS_SINGLE with a failure on id 2, results for 1,
2 (failed) and 3 are all present in order and the run completes. -/
theorem c4_failure_isolation :
    (∀ (args : Args) (rows : List Row) (gen : Int → Bool),
        runMain args rows gen
          = ⟨(runMain args rows allOk).events.map (setOk gen),
             (runMain args rows allOk).fatal⟩)
    ∧ runMain singleArgs scenarioRows failOn2
        = ⟨[Event.construct true,
            Event.exec row1 1 true true,
            Event.exec row2 2 true false,
            Event.exec row3 3 true true], none⟩ := by
  constructor
  · intro args rows gen
    rw [runMain_def, runMain_def, csvLoop_setOk args gen]
    simp [setOk]
  · decide

/-- C5: on a completed run, the executed ids are exactly the input ids lying
in the inclusive `(start_id, end_id)` range (absent bound = unbounded,
boundaries included), and the id filter only removes requests from the
scheduled order without reordering the survivors. -/
theorem c5_filter_exact (args : Args) (rows : List Row) (gen : Int → Bool)
    (hok : (runMain args rows gen).fatal = none) :
    (∀ n : Int, n ∈ execIds (runMain args rows gen).events ↔
        (n ∈ inputIds rows
          ∧ (∀ lo, args.start_id = some lo → lo ≤ n)
          ∧ (∀ hi, args.end_id = some hi → n ≤ hi)))
    ∧ execIds (runMain args rows gen).events
        = (inputIds (scheduledPrompts args rows)).filter (fun n => !skipRow args n) := by
  have hok' : (csvLoop args gen (scheduledPrompts args rows)
      (initialSingleRoom args)).fatal = none := hok
  have h1 := csvLoop_execIds args gen (scheduledPrompts args rows)
    (initialSingleRoom args) hok'
  have he : execIds (runMain args rows gen).events
      = execIds (csvLoop args gen (scheduledPrompts args rows)
          (initialSingleRoom args)).events := by
    rw [runMain_def]
    simp [execIds]
  have hperm : List.Perm (inputIds (scheduledPrompts args rows)) (inputIds rows) :=
    (scheduledPrompts_perm args rows).filterMap rowId
  constructor
  · intro n
    rw [he, h1]
    constructor
    · intro hmem
      have h2 := List.mem_filter.mp hmem
      refine ⟨hperm.mem_iff.mp h2.1, ?_⟩
      have h5 : skipRow args n = false := by simpa using h2.2
      exact (skipRow_eq_false args n).mp h5
    · rintro ⟨hmem, hbounds⟩
      refine List.mem_filter.mpr ⟨hperm.mem_iff.mpr hmem, ?_⟩
      simp [(skipRow_eq_false args n).mpr hbounds]
  · rw [he, h1]
    rfl

/-- C5 witness: the id 2 bound scenario. -/
theorem c5_witness :
    2 ∈ execIds (runMain csvArgs22 scenarioRows allOk).events ↔
      (2 ∈ inputIds scenarioRows
        ∧ (∀ lo, csvArgs22.start_id = some lo → lo ≤ 2)
        ∧ (∀ hi, csvArgs22.end_id = some hi → (2 : Int) ≤ hi)) :=
  (c5_filter_exact csvArgs22 scenarioRows allOk
    (by rw [runMain_csv csvArgs22 scenarioRows allOk rfl]; decide)).1 2

/-- C6: every generate call runs with the engine in the mode the request
requires — the fixed mode under `"true"`/`"false"`, the row's
`not is_house` under `"csv"`. -/
theorem c6_session_mode (args : Args) (rows : List Row) (gen : Int → Bool) :
    ∀ r id m ok, Event.exec r id m ok ∈ (runMain args rows gen).events →
      m = requiredSingleRoom args r := by
  intro r id m ok h
  rw [runMain_def] at h
  rcases List.mem_cons.mp h with h | h
  · simp at h
  · have h2 := csvLoop_mode args gen (scheduledPrompts args rows)
      (initialSingleRoom args) r id m ok h
    cases hm : args.single_room with
    | strue =>
      simp [hm, initialSingleRoom] at h2
      simp [requiredSingleRoom, hm, h2]
    | sfalse =>
      simp [hm, initialSingleRoom] at h2
      simp [requiredSingleRoom, hm, h2]
    | scsv =>
      simp [hm] at h2
      simp [requiredSingleRoom, hm, h2]

/-- C6 witness: the first scenario request under ALWAYS_SINGLE. -/
theorem c6_witness : true = requiredSingleRoom singleArgs row1 :=
  c6_session_mode singleArgs scenarioRows allOk row1 1 true true (by decide)

/-- C7 counterexample: a row whose `Description` column is missing does not
make the run fail when the id filter excludes it — the claim's "description
column absent implies fatal failure" is false as stated, because line 101
reads `Description` only after the id-range `continue`s of lines 96-99. -/
theorem c7_counterexample :
    (runMain singleArgsEnd1 [row1, rowNoDesc] allOk).fatal = none
      ∧ rowNoDesc.Description = none
      ∧ execIds (runMain singleArgsEnd1 [row1, rowNoDesc] allOk).events = [1] := by
  decide

/-- C7 amended: a missing or non-integer `ID` on any row aborts the run
fatally (it is raised outside the per-request handler), and on a completed
run every row parsed its `ID` and every row inside the id range had a
`Description`; a row excluded by the filter never has its `Description`
read, so its absence there is not an error. -/
theorem c7_fatal_parse (args : Args) (rows : List Row) (gen : Int → Bool) :
    ((∃ r ∈ rows, rowId r = none) → (runMain args rows gen).fatal ≠ none)
    ∧ ((runMain args rows gen).fatal = none →
        ∀ r ∈ rows, (∃ n, rowId r = some n)
          ∧ (∀ n, rowId r = some n → skipRow args n = false →
              r.Description.isSome = true)) := by
  constructor
  · rintro ⟨r, hr, hid⟩
    exact csvLoop_badId_fatal args gen (scheduledPrompts args rows) (initialSingleRoom args)
      ⟨r, (scheduledPrompts_perm args rows).mem_iff.mpr hr, hid⟩
  · intro hok r hr
    have hok' : (csvLoop args gen (scheduledPrompts args rows)
        (initialSingleRoom args)).fatal = none := hok
    have hmem : r ∈ scheduledPrompts args rows :=
      (scheduledPrompts_perm args rows).mem_iff.mpr hr
    exact ⟨csvLoop_ok_rowId args gen _ _ hok' r hmem,
      fun n hn hnskip => csvLoop_ok_description args gen _ _ hok' r hmem n hn hnskip⟩

/-- C7 witness: a single bad-`ID` row aborts the run. -/
theorem c7_witness : (runMain singleArgs [rowBadId] allOk).fatal ≠ none :=
  (c7_fatal_parse singleArgs [rowBadId] allOk).1 ⟨rowBadId, by decide, by decide⟩

/-- C8: the per-request output path is a pure function of the output root
and the id — the root joined with `scene_` and the id zero-padded to width
3 (id 7 gives `scene_007`) — and distinct ids never produce colliding
paths. -/
theorem c8_save_dir :
    (∀ root : String, saveDir root 7 = root ++ "/scene_007")
    ∧ (∀ (root : String) (id : Int), saveDir root id = root ++ "/scene_" ++ zfill3 id)
    ∧ (∀ (root : String) (id₁ id₂ : Int), id₁ ≠ id₂ →
        saveDir root id₁ ≠ saveDir root id₂) := by
  refine ⟨?_, ?_, ?_⟩
  · intro root
    rw [saveDir]
    have h7 : zfill3 7 = "007" := by decide
    rw [h7, String.append_assoc]
    rfl
  · intro root id
    rfl
  · intro root id₁ id₂ hne h
    apply hne
    have h2 := congrArg String.data h
    simp only [saveDir, String.data_append] at h2
    have h3 := List.append_cancel_left h2
    have e1 := parseSigned_zfill3 id₁
    rw [h3, parseSigned_zfill3 id₂] at e1
    exact e1.symm

/-- C8 witness: two concrete ids give distinct paths. -/
theorem c8_witness : saveDir "out" 1 ≠ saveDir "out" 2 :=
  c8_save_dir.2.2 "out" 1 2 (by decide)

/-- C9: a run whose id filter matches nothing — in particular an empty
table — performs no generation work and completes: the only event is the
initial engine construction and the fatal outcome is `none`. -/
theorem c9_empty_filter (args : Args) (rows : List Row) (gen : Int → Bool)
    (h : ∀ r ∈ rows, ∃ n, rowId r = some n ∧ skipRow args n = true) :
    runMain args rows gen = ⟨[Event.construct (initialSingleRoom args)], none⟩ := by
  have h' : ∀ r ∈ scheduledPrompts args rows,
      ∃ n, rowId r = some n ∧ skipRow args n = true :=
    fun r hr => h r ((scheduledPrompts_perm args rows).mem_iff.mp hr)
  rw [runMain_def, csvLoop_all_skipped args gen _ _ h']

/-- C9 witness: one row, excluded by `end_id = 1`. -/
theorem c9_witness : runMain singleArgsEnd1 [rowNoDesc] allOk
    = ⟨[Event.construct true], none⟩ :=
  c9_empty_filter singleArgsEnd1 [rowNoDesc] allOk (by
    intro r hr
    rw [List.mem_singleton] at hr
    subst hr
    exact ⟨5, by decide, by decide⟩)

/-- C10: `int(row["ID"])` runs before the id-range test and outside the
per-request handler: any row with a missing or unparseable `ID` aborts the
whole run, even after earlier requests already executed and even when its
position would have been excluded by the bounds — concretely, with
`end_id = 1`, the row with `ID = "2.5"` aborts the run after id 1 ran. -/
theorem c10_parse_before_filter :
    (∀ (args : Args) (rows : List Row) (gen : Int → Bool),
        (∃ r ∈ rows, rowId r = none) → (runMain args rows gen).fatal ≠ none)
    ∧ (∀ gen : Int → Bool,
        runMain singleArgsEnd1 [row1, rowBadId] gen
          = ⟨[Event.construct true, Event.exec row1 1 true (gen 1)],
             some (Fatal.valueErrorID "2.5")⟩) := by
  constructor
  · rintro args rows gen ⟨r, hr, hid⟩
    exact csvLoop_badId_fatal args gen (scheduledPrompts args rows) (initialSingleRoom args)
      ⟨r, (scheduledPrompts_perm args rows).mem_iff.mpr hr, hid⟩
  · intro gen
    rfl

/-- C10 witness: the general clause at the concrete two-row table. -/
theorem c10_witness : (runMain singleArgsEnd1 [row1, rowBadId] allOk).fatal ≠ none :=
  c10_parse_before_filter.1 singleArgsEnd1 [row1, rowBadId] allOk
    ⟨rowBadId, by decide, by decide⟩
